import Mathlib

/-!
Shallow embedding of the authentication subsystem of the youGo API skeleton
(internal/auth/jwt.go, internal/auth/password.go, internal/auth/auth_service.go,
internal/api/middleware/auth_middleware.go) together with the behaviour of its
two cryptographic collaborators, golang.org/x/crypto/bcrypt and
github.com/golang-jwt/jwt/v5, as exercised by that code.

Modelling conventions:
* byte strings are `List Nat`; Go `string`s handled character-wise are `List Char`;
* `time.Now()` is modelled as an explicit instant parameter `now` (the injected
  clock of the design), constant for the duration of one call;
* randomness (the bcrypt salt) is an explicit parameter;
* the HMAC tag and the bcrypt key-derivation are modelled as injective
  constructors of their inputs (ideal collision-free primitives), which is the
  standard idealisation and exactly what the specification's own properties
  presuppose;
* base64url/JSON encoding of a structurally well-formed JWT is abstracted away:
  a wire token is either `malformed` (any string that does not decode) or the
  decoded triple (header algorithm, claims payload, optional signature tag).
-/

set_option autoImplicit false

namespace YouGo

/-! ### Bytes and basic aliases -/

/-- A Go byte slice / the bytes of a Go string. -/
abbrev Bytes := List Nat

/-- `uuid.UUID` modelled as a number; `uuid.Nil` is the zero value. -/
abbrev UUID := Nat

/-- `uuid.Nil`, the zero UUID. -/
def UUID.nil : UUID := 0

/-- An instant in time (`time.Time`), as a count of time units. -/
abbrev Instant := Int

/-- A `time.Duration`. -/
abbrev Duration := Int

/-! ### golang.org/x/crypto/bcrypt, as called by internal/auth/password.go

`bcrypt.GenerateFromPassword` (modern x/crypto, as pulled in by this Go 1.24
module) rejects passwords longer than 72 bytes with `ErrPasswordTooLong`.
Internally, blowfish `ExpandKey` consumes exactly 72 bytes from the cyclic
stream of `password ++ [0]` (the appended NUL terminator); bytes of that
stream beyond position 71 never influence the digest, and the digest is a
function of (cost, salt, that 72-byte stream).  `CompareHashAndPassword`
re-derives the digest from the cost and salt embedded in the stored hash and
compares; it has no length pre-check. -/

/-- The 72 bytes of key material bcrypt actually consumes: the first 72 bytes
of the cyclic repetition of `password ++ [0]`. -/
def bcryptEffectiveKey (password : Bytes) : Bytes :=
  let ck := password ++ [0]
  (List.range 72).map fun i => ck.getD (i % ck.length) 0

/-- A well-formed bcrypt digest: cost and salt are embedded in the output, and
the remainder is determined by the effective key material (ideal KDF). -/
structure BcryptHash where
  cost : Nat
  salt : Nat
  key : Bytes
deriving DecidableEq, Repr

/-- `bcrypt.DefaultCost`. -/
def DefaultCost : Nat := 10

/-- `bcrypt.GenerateFromPassword`, with the random salt made explicit. -/
def GenerateFromPassword (salt : Nat) (password : Bytes) (cost : Nat) :
    Except String BcryptHash :=
  if password.length > 72 then
    .error "bcrypt: password length exceeds 72 bytes"
  else
    .ok { cost := cost, salt := salt, key := bcryptEffectiveKey password }

/-- `bcrypt.CompareHashAndPassword hash password`: re-derives the digest from
the embedded salt/cost and compares in constant time.  `true` models a `nil`
error (match). -/
def CompareHashAndPassword (hash : BcryptHash) (password : Bytes) : Bool :=
  bcryptEffectiveKey password == hash.key

/-- `auth.HashPassword` from password.go: `GenerateFromPassword` at
`bcrypt.DefaultCost`, wrapping any error as "failed to hash password: %w". -/
def HashPassword (salt : Nat) (password : Bytes) : Except String BcryptHash :=
  match GenerateFromPassword salt password DefaultCost with
  | .error e => .error ("failed to hash password: " ++ e)
  | .ok h => .ok h

/-- `auth.CheckPasswordHash` from password.go: true iff
`bcrypt.CompareHashAndPassword` returned a nil error. -/
def CheckPasswordHash (password : Bytes) (hash : BcryptHash) : Bool :=
  CompareHashAndPassword hash password

/-! ### github.com/golang-jwt/jwt/v5, as called by internal/auth/jwt.go -/

/-- The claims payload of jwt.go's `CustomClaims`: the custom `user_id` claim
plus the registered claims the generators populate.  Registered timestamp
claims are optional on the wire. -/
structure CustomClaims where
  userID : UUID
  subject : String
  expiresAt : Option Instant
  issuedAt : Option Instant
  notBefore : Option Instant
deriving DecidableEq, Repr

/-- An HMAC signature tag over the token's signing input (header and payload),
keyed by the secret.  Modelled as the injective record of its inputs (ideal
MAC): two tags are equal exactly when algorithm, key and signed content agree. -/
structure HmacTag where
  alg : String
  key : Bytes
  signedClaims : CustomClaims
deriving DecidableEq, Repr

/-- A JWT compact serialization as handed to `ParseWithClaims`: either a string
that fails structural decoding (segments / base64 / JSON), or the decoded
header algorithm, payload and signature.  `sig = none` models a signature that
is not a well-formed HMAC tag at all (e.g. the empty signature of an `alg=none`
token), which can never compare equal to a recomputed tag. -/
inductive TokenString
  | malformed
  | wire (alg : String) (claims : CustomClaims) (sig : Option HmacTag)
deriving DecidableEq, Repr

/-- The signing algorithms registered with golang-jwt v5's `GetSigningMethod`. -/
def registeredAlgs : List String :=
  ["HS256", "HS384", "HS512", "RS256", "RS384", "RS512",
   "ES256", "ES384", "ES512", "PS256", "PS384", "PS512", "EdDSA", "none"]

/-- Whether the method registered for `alg` is of type `*jwt.SigningMethodHMAC`
(the type-assertion made by jwt.go's keyfunc). -/
def isHMACMethod (alg : String) : Bool :=
  ["HS256", "HS384", "HS512"].contains alg

/-- `jwt.SigningMethodHS256.Alg()`. -/
def SigningMethodHS256 : String := "HS256"

/-- Error classes of golang-jwt v5's parser, as distinguished by `errors.Is`
in jwt.go.  `unverifiableMethod` and `keyfuncRejected` both carry
`jwt.ErrTokenUnverifiable`; they are matched by none of the four `errors.Is`
checks in jwt.go. -/
inductive ParseError
  | malformedStructure
  | unverifiableMethod (alg : String)
  | keyfuncRejected (alg : String)
  | signatureMismatch
  | claimsExpired
  | claimsNotYetValid
deriving DecidableEq, Repr

/-- v5 claims validation of `exp`: an error exactly when `now` is not before
the expiry, i.e. `exp ≤ now`.  A missing `exp` claim is accepted. -/
def expCheckFails (now : Instant) (claims : CustomClaims) : Bool :=
  match claims.expiresAt with
  | some e => decide (e ≤ now)
  | none => false

/-- v5 claims validation of `nbf`: an error exactly when `now < nbf`.
A missing `nbf` claim is accepted. -/
def nbfCheckFails (now : Instant) (claims : CustomClaims) : Bool :=
  match claims.notBefore with
  | some nbf => decide (now < nbf)
  | none => false

/-- `jwt.ParseWithClaims` with the keyfunc written in jwt.go's `ValidateToken`
(reject any method that is not `*jwt.SigningMethodHMAC`, else return the
secret).  Pipeline order of v5: structural decode, signing-method lookup,
keyfunc, signature verification, claims validation (`exp` before `nbf`). -/
def ParseWithClaims (tok : TokenString) (secret : Bytes) (now : Instant) :
    Except ParseError CustomClaims :=
  match tok with
  | .malformed => .error .malformedStructure
  | .wire alg claims sig =>
    if registeredAlgs.contains alg = false then
      .error (.unverifiableMethod alg)
    else if isHMACMethod alg = false then
      .error (.keyfuncRejected alg)
    else if sig ≠ some { alg := alg, key := secret, signedClaims := claims } then
      .error .signatureMismatch
    else if expCheckFails now claims then
      .error .claimsExpired
    else if nbfCheckFails now claims then
      .error .claimsNotYetValid
    else
      .ok claims

/-- The error cases of jwt.go's `ValidateToken`, one per wrapping branch. -/
inductive TokenError
  | malformedToken
  | tokenExpired
  | tokenNotValidYet
  | invalidTokenSignature
  | couldNotParse
deriving DecidableEq, Repr

/-- `auth.ValidateToken` from jwt.go: parse with the HMAC-only keyfunc, then
map parser errors through the `errors.Is` chain (malformed, expired, not valid
yet, signature invalid, otherwise "could not parse token").  The trailing
`errors.New("invalid token")` branch of the Go code is unreachable in v5 (a
nil parse error implies `token.Valid`). -/
def ValidateToken (tok : TokenString) (secret : Bytes) (now : Instant) :
    Except TokenError CustomClaims :=
  match ParseWithClaims tok secret now with
  | .error .malformedStructure => .error .malformedToken
  | .error .claimsExpired => .error .tokenExpired
  | .error .claimsNotYetValid => .error .tokenNotValidYet
  | .error .signatureMismatch => .error .invalidTokenSignature
  | .error (.unverifiableMethod _) => .error .couldNotParse
  | .error (.keyfuncRejected _) => .error .couldNotParse
  | .ok claims => .ok claims

/-- The claims record `GenerateAccessToken`/`GenerateRefreshToken` build:
subject is the UUID's string form; `iat = now`, `nbf = now`,
`exp = now + expiryDuration`. -/
def issuedClaims (userID : UUID) (expiryDuration : Duration) (now : Instant) :
    CustomClaims :=
  { userID := userID
    subject := toString userID
    expiresAt := some (now + expiryDuration)
    issuedAt := some now
    notBefore := some now }

/-- `auth.GenerateAccessToken` from jwt.go.  The Go function returns
`(string, error)`; with `jwt.SigningMethodHS256` and a `[]byte` key,
`token.SignedString` never returns an error, so the error branch of the Go
code is dead and the model always returns `.ok`. -/
def GenerateAccessToken (userID : UUID) (secret : Bytes)
    (expiryDuration : Duration) (now : Instant) : Except String TokenString :=
  let claims := issuedClaims userID expiryDuration now
  .ok (.wire SigningMethodHS256 claims
        (some { alg := SigningMethodHS256, key := secret, signedClaims := claims }))

/-- `auth.GenerateRefreshToken` from jwt.go: same construction, typically a
longer expiry. -/
def GenerateRefreshToken (userID : UUID) (secret : Bytes)
    (expiryDuration : Duration) (now : Instant) : Except String TokenString :=
  let claims := issuedClaims userID expiryDuration now
  .ok (.wire SigningMethodHS256 claims
        (some { alg := SigningMethodHS256, key := secret, signedClaims := claims }))

/-- The claims payload carried by a structurally well-formed token. -/
def TokenString.payload : TokenString → Option CustomClaims
  | .malformed => none
  | .wire _ claims _ => some claims

/-! ### internal/auth/auth_service.go -/

/-- The `authService` struct (the repository dependency is passed to `Login`
as a function, mirroring the `domain.UserRepository` interface). -/
structure AuthService where
  jwtSecret : Bytes
  accessTokenDuration : Duration
  refreshTokenDuration : Duration
deriving Repr

/-- `auth.NewAuthService`: panics (modelled as `none`) when the secret is
empty. -/
def NewAuthService (secret : Bytes) (accessDuration refreshDuration : Duration) :
    Option AuthService :=
  if secret = [] then none
  else some ⟨secret, accessDuration, refreshDuration⟩

/-- Alias for jwt.go's `ValidateToken`, usable inside the `AuthService`
namespace where the bare name would refer to the service method itself. -/
def jwtValidateToken (tok : TokenString) (secret : Bytes) (now : Instant) :
    Except TokenError CustomClaims :=
  ValidateToken tok secret now

/-- Errors of `authService.ValidateToken`. -/
inductive ServiceTokenError
  | validationFailed (e : TokenError)
  | missingUserIdentifier
deriving DecidableEq, Repr

/-- `(*authService).ValidateToken` from auth_service.go.  Note the Go body:

```
userIDStr := claims.UserID
if userIDStr == uuid.Nil { userIDStr = claims.UserID }
if userID == uuid.Nil { return uuid.Nil, errors.New("invalid token: missing user identifier in claims") }
return userID, nil
```

Only the local `userIDStr` is ever assigned; the named return `userID` keeps
its zero value `uuid.Nil`, so the `userID == uuid.Nil` test reads that zero
value.  The model reproduces this faithfully. -/
def AuthService.ValidateToken (s : AuthService) (tok : TokenString)
    (now : Instant) : Except ServiceTokenError UUID :=
  match jwtValidateToken tok s.jwtSecret now with
  | .error e => .error (.validationFailed e)
  | .ok claims =>
    let userIDStr := claims.userID
    let _userIDStr := if userIDStr = UUID.nil then claims.userID else userIDStr
    let userID : UUID := UUID.nil
    if userID = UUID.nil then .error .missingUserIdentifier
    else .ok userID

/-- A stored user, as far as `Login` reads it (`domain.User`). -/
structure User where
  id : UUID
  passwordHash : BcryptHash
deriving Repr

/-- Result of `userRepo.FindByEmail`: either the user, the sentinel
`domain.ErrNotFound` (as recognised by `errors.Is`), or any other repository
failure. -/
inductive StoreError
  | notFound
  | failure (msg : String)
deriving DecidableEq, Repr

/-- `request.LoginRequest`, with the password as its bytes. -/
structure LoginRequest where
  email : String
  password : Bytes
deriving Repr

/-- The distinct error values `Login` can return.  `invalidCredentials` is the
sentinel `auth.ErrInvalidCredentials`; the others are distinct wrapped errors
(`fmt.Errorf` with `%w` never yields a value for which `errors.Is` against
`ErrInvalidCredentials` holds, since that sentinel is never the wrapped
argument on those paths). -/
inductive LoginError
  | invalidCredentials
  | findUserFailure (msg : String)
  | signAccessFailure (msg : String)
  | signRefreshFailure (msg : String)
deriving DecidableEq, Repr

/-- The `(accessToken, refreshToken string, err error)` triple returned by
`Login`; `none` models the empty string `""`. -/
structure LoginResult where
  accessToken : Option TokenString
  refreshToken : Option TokenString
  err : Option LoginError
deriving Repr

/-- `(*authService).Login` from auth_service.go. -/
def Login (s : AuthService) (findByEmail : String → Except StoreError User)
    (req : LoginRequest) (now : Instant) : LoginResult :=
  match findByEmail req.email with
  | .error .notFound => ⟨none, none, some .invalidCredentials⟩
  | .error (.failure msg) => ⟨none, none, some (.findUserFailure msg)⟩
  | .ok user =>
    if CheckPasswordHash req.password user.passwordHash = false then
      ⟨none, none, some .invalidCredentials⟩
    else
      match GenerateAccessToken user.id s.jwtSecret s.accessTokenDuration now with
      | .error e => ⟨none, none, some (.signAccessFailure e)⟩
      | .ok access =>
        match GenerateRefreshToken user.id s.jwtSecret s.refreshTokenDuration now with
        | .error e => ⟨none, none, some (.signRefreshFailure e)⟩
        | .ok refresh => ⟨some access, some refresh, none⟩

/-! ### internal/api/middleware/auth_middleware.go -/

/-- A Go string handled character-wise by the middleware. -/
abbrev GoStr := List Char

/-- `strings.Split s " "`: split around every single space character.
(For a nonempty separator Go returns `[""]` on the empty string, and `n+1`
fields for `n` separators.) -/
def goSplitSpace : GoStr → List GoStr
  | [] => [[]]
  | c :: rest =>
    if c = ' ' then
      [] :: goSplitSpace rest
    else
      let g := goSplitSpace rest
      (c :: g.headD []) :: g.tail

/-- Join a field list back with single spaces (the inverse of `goSplitSpace`
on its image); used to state what a two-field split says about the header. -/
def joinSpace : List GoStr → GoStr
  | [] => []
  | [x] => x
  | x :: y :: rest => x ++ ' ' :: joinSpace (y :: rest)

/-- `strings.ToLower` on one character (ASCII range, which is all the
middleware compares against `"bearer"`). -/
def goLowerChar (c : Char) : Char :=
  if 'A' ≤ c ∧ c ≤ 'Z' then Char.ofNat (c.toNat + 32) else c

/-- `strings.ToLower`. -/
def goLower (s : GoStr) : GoStr := s.map goLowerChar

/-- Outcome of one request passing through the gate: `rejected` returns an
`echo.NewHTTPError` without ever calling the downstream handler; `admitted`
stores the user ID in the request context and invokes `next(c)` exactly
once. -/
inductive GateOutcome
  | rejected (status : Nat) (message : String)
  | admitted (userID : UUID)
deriving DecidableEq, Repr

/-- `middleware.JWTAuth` from auth_middleware.go, as the per-request function
its returned closure computes.  `validateTok` is the injected
`auth.Service.ValidateToken` (over the raw token string); `authHeader` is the
value of the `Authorization` header, `[]` when the header is absent
(`Header.Get` returns `""`). -/
def JWTAuth (validateTok : GoStr → Except String UUID) (authHeader : GoStr) :
    GateOutcome :=
  if authHeader = [] then
    .rejected 401 "Missing or malformed authorization header"
  else if (goSplitSpace authHeader).length ≠ 2 ∨
      goLower ((goSplitSpace authHeader).headD []) ≠ "bearer".toList then
    .rejected 401 "Missing or malformed authorization header"
  else if (goSplitSpace authHeader).getD 1 [] = [] then
    .rejected 401 "Missing or malformed authorization header"
  else
    match validateTok ((goSplitSpace authHeader).getD 1 []) with
    | .error _ => .rejected 401 "Invalid or expired token"
    | .ok userID => .admitted userID

/-- A header of the exact accepted shape: one scheme word spelling `bearer`
up to ASCII case, exactly one space, then a non-empty token containing no
space. -/
def WellFormedBearerHeader (h : GoStr) : Prop :=
  ∃ s t : GoStr,
    h = s ++ ' ' :: t ∧ ' ' ∉ s ∧ ' ' ∉ t ∧ t ≠ [] ∧ goLower s = "bearer".toList

/-- The timestamp invariant of the data model: all three timestamp claims are
present, `not-before ≤ issued-at` and `expires-at > issued-at`. -/
def claimsWellOrdered (c : CustomClaims) : Prop :=
  ∃ iat nbf exp,
    c.issuedAt = some iat ∧ c.notBefore = some nbf ∧ c.expiresAt = some exp ∧
    nbf ≤ iat ∧ iat < exp

/-! ## Theorems -/

theorem HashPassword_ok_iff (s : Nat) (p : Bytes) (h : BcryptHash) :
    HashPassword s p = .ok h ↔
      p.length ≤ 72 ∧ h = ⟨DefaultCost, s, bcryptEffectiveKey p⟩ := by
  unfold HashPassword GenerateFromPassword
  by_cases hp : p.length > 72
  · simp only [hp, if_true, reduceCtorEq, false_iff, not_and]
    omega
  · simp only [hp, if_false]
    constructor
    · intro he
      refine ⟨by omega, ?_⟩
      cases he
      rfl
    · intro ⟨_, he⟩
      rw [he]

theorem CheckPasswordHash_eq_key_compare (p : Bytes) (h : BcryptHash) :
    CheckPasswordHash p h = (bcryptEffectiveKey p == h.key) := rfl

/-- **C5.** For every password `p` and any two hashing calls on `p` (modelled
by their two random salts, which differ), both digests verify against `p` and
the two digests are different. -/
theorem c5_hash_verify_and_salt_distinct (p : Bytes) (s1 s2 : Nat)
    (h1 h2 : BcryptHash) (hs : s1 ≠ s2)
    (e1 : HashPassword s1 p = .ok h1) (e2 : HashPassword s2 p = .ok h2) :
    CheckPasswordHash p h1 = true ∧ CheckPasswordHash p h2 = true ∧ h1 ≠ h2 := by
  obtain ⟨-, rfl⟩ := (HashPassword_ok_iff s1 p h1).mp e1
  obtain ⟨-, rfl⟩ := (HashPassword_ok_iff s2 p h2).mp e2
  refine ⟨?_, ?_, ?_⟩
  · simp [CheckPasswordHash, CompareHashAndPassword]
  · simp [CheckPasswordHash, CompareHashAndPassword]
  · intro he
    exact hs (congrArg BcryptHash.salt he)

/-- Witness for C5 at `p = [97]`, salts 0 and 1. -/
theorem c5_hash_verify_and_salt_distinct_witness :
    CheckPasswordHash [97] ⟨DefaultCost, 0, bcryptEffectiveKey [97]⟩ = true ∧
    CheckPasswordHash [97] ⟨DefaultCost, 1, bcryptEffectiveKey [97]⟩ = true ∧
    (⟨DefaultCost, 0, bcryptEffectiveKey [97]⟩ : BcryptHash) ≠
      ⟨DefaultCost, 1, bcryptEffectiveKey [97]⟩ :=
  c5_hash_verify_and_salt_distinct [97] 0 1 _ _ (by decide) rfl rfl

/-- **C6, counterexample.** The 73-byte and 72-byte all-`a` passwords are
different, yet the longer one verifies as `true` against a hash of the shorter
one: bcrypt consumes only 72 bytes of key material, so the claim
"`CheckPasswordHash p (HashPassword p2) = false` for all `p ≠ p2`" is false. -/
theorem c6_truncation_counterexample :
    (List.replicate 73 97 : Bytes) ≠ List.replicate 72 97 ∧
    HashPassword 0 (List.replicate 72 97) =
      .ok ⟨DefaultCost, 0, bcryptEffectiveKey (List.replicate 72 97)⟩ ∧
    CheckPasswordHash (List.replicate 73 97)
      ⟨DefaultCost, 0, bcryptEffectiveKey (List.replicate 72 97)⟩ = true :=
  ⟨by decide, rfl, by decide⟩

/-- **C6, amended.** `CheckPasswordHash p h`, for `h` a digest of `p2`, is
`false` exactly when the effective bcrypt key material of `p` (the first 72
bytes of the cyclic stream of the password bytes followed by a NUL) differs
from that of `p2`. -/
theorem c6_verify_false_iff_effective_key_differs (p p2 : Bytes) (s : Nat)
    (h : BcryptHash) (e : HashPassword s p2 = .ok h) :
    CheckPasswordHash p h = false ↔
      bcryptEffectiveKey p ≠ bcryptEffectiveKey p2 := by
  obtain ⟨-, rfl⟩ := (HashPassword_ok_iff s p2 h).mp e
  simp [CheckPasswordHash, CompareHashAndPassword]

/-- Witness for the amended C6 at `p = [1]`, `p2 = [2]`. -/
theorem c6_verify_false_iff_effective_key_differs_witness :
    CheckPasswordHash [1] ⟨DefaultCost, 5, bcryptEffectiveKey [2]⟩ = false :=
  (c6_verify_false_iff_effective_key_differs [1] [2] 5 _ rfl).mpr (by decide)

/-- **C7, counterexample.** `HashPassword` fails on a 73-byte password purely
because of its length: the claim that it never fails due to password content
is false for the bcrypt in use (`bcrypt.ErrPasswordTooLong`). -/
theorem c7_long_password_errors_counterexample :
    HashPassword 0 (List.replicate 73 97) =
      .error "failed to hash password: bcrypt: password length exceeds 72 bytes" := rfl

/-- **C7, amended.** Besides entropy/resource errors, `HashPassword` also
fails on any password longer than 72 bytes; for every password of at most 72
bytes it returns a digest regardless of content. -/
theorem c7_short_password_always_hashes (s : Nat) (p : Bytes)
    (hp : p.length ≤ 72) :
    HashPassword s p = .ok ⟨DefaultCost, s, bcryptEffectiveKey p⟩ :=
  (HashPassword_ok_iff s p _).mpr ⟨hp, rfl⟩

/-- Witness for the amended C7 at `p = [0, 255]`. -/
theorem c7_short_password_always_hashes_witness :
    HashPassword 3 [0, 255] = .ok ⟨DefaultCost, 3, bcryptEffectiveKey [0, 255]⟩ :=
  c7_short_password_always_hashes 3 [0, 255] (by decide)

/-- **C1.** A token generated by `GenerateAccessToken` for user 5 with secret
`[1,2,3]` and ttl 3600, validated immediately (`now` unchanged) is accepted by
jwt.go's `ValidateToken` with the right subject — but the auth service's
`ValidateToken` still returns an error (`missingUserIdentifier`): its named
return `userID` is never assigned, so the `userID == uuid.Nil` guard always
fires.  The second conjunct shows this happens for every token and every
service configuration, so the service-level round trip can never succeed. -/
theorem c1_access_token_roundtrip_service_always_errors :
    (∃ tok c, GenerateAccessToken 5 [1, 2, 3] 3600 1000 = .ok tok ∧
      ValidateToken tok [1, 2, 3] 1000 = .ok c ∧
      c.userID = 5 ∧ c.subject = "5" ∧
      AuthService.ValidateToken ⟨[1, 2, 3], 3600, 86400⟩ tok 1000 =
        .error .missingUserIdentifier) ∧
    ∀ (s : AuthService) (tok : TokenString) (now : Instant),
      ∃ e, AuthService.ValidateToken s tok now = .error e := by
  constructor
  · exact ⟨.wire SigningMethodHS256 (issuedClaims 5 3600 1000)
        (some ⟨SigningMethodHS256, [1, 2, 3], issuedClaims 5 3600 1000⟩),
      issuedClaims 5 3600 1000, rfl, rfl, rfl, rfl, rfl⟩
  · intro s tok now
    unfold AuthService.ValidateToken
    cases jwtValidateToken tok s.jwtSecret now with
    | error e => exact ⟨.validationFailed e, rfl⟩
    | ok claims => exact ⟨.missingUserIdentifier, rfl⟩

/-- **C3, counterexample.** An `alg = "none"` token is rejected, but with the
generic "could not parse token" wrapping (the keyfunc's
`jwt.ErrTokenUnverifiable`), not the "invalid token signature" branch, so the
claimed `SignatureInvalid`-kind error is wrong. -/
theorem c3_nonhmac_alg_error_kind_counterexample :
    isHMACMethod "none" = false ∧
    ValidateToken (.wire "none" ⟨1, "1", none, none, none⟩ none) [7] 0 =
      .error .couldNotParse ∧
    TokenError.couldNotParse ≠ TokenError.invalidTokenSignature :=
  ⟨rfl, rfl, by decide⟩

/-- **C3, amended.** For every token whose header algorithm is outside the
HMAC family (including `"none"`) and every secret, `ValidateToken` rejects the
token — never returning claims — with the generic could-not-parse error (the
keyfunc / method-lookup rejection), not the signature-invalid error. -/
theorem c3_nonhmac_alg_rejected_could_not_parse (alg : String)
    (claims : CustomClaims) (sg : Option HmacTag) (secret : Bytes)
    (now : Instant) (halg : isHMACMethod alg = false) :
    ValidateToken (.wire alg claims sg) secret now = .error .couldNotParse := by
  by_cases hmem : alg ∈ registeredAlgs <;>
    simp [ValidateToken, ParseWithClaims, hmem, halg]

/-- Witness for the amended C3 at `alg = "RS256"`. -/
theorem c3_nonhmac_alg_rejected_could_not_parse_witness :
    ValidateToken (.wire "RS256" ⟨2, "2", some 10, some 0, some 0⟩ none) [1] 3 =
      .error .couldNotParse :=
  c3_nonhmac_alg_rejected_could_not_parse "RS256" _ _ _ _ (by decide)

/-- **C8.** Both generators succeed and build exactly the claims record
`{user_id = u, sub = toString u, iat = now, nbf = now, exp = now + ttl}`, and
for positive ttls the record satisfies `not-before ≤ issued-at` and
`expires-at > issued-at`. -/
theorem c8_issued_claims_shape_and_invariant (u : UUID) (secret : Bytes)
    (ttlA ttlR : Duration) (now : Instant) (hA : 0 < ttlA) (hR : 0 < ttlR) :
    ∃ ta tr, GenerateAccessToken u secret ttlA now = .ok ta ∧
      GenerateRefreshToken u secret ttlR now = .ok tr ∧
      ta.payload = some (issuedClaims u ttlA now) ∧
      tr.payload = some (issuedClaims u ttlR now) ∧
      (issuedClaims u ttlA now).issuedAt = some now ∧
      (issuedClaims u ttlA now).notBefore = some now ∧
      (issuedClaims u ttlA now).expiresAt = some (now + ttlA) ∧
      (issuedClaims u ttlR now).issuedAt = some now ∧
      (issuedClaims u ttlR now).notBefore = some now ∧
      (issuedClaims u ttlR now).expiresAt = some (now + ttlR) ∧
      claimsWellOrdered (issuedClaims u ttlA now) ∧
      claimsWellOrdered (issuedClaims u ttlR now) := by
  refine ⟨_, _, rfl, rfl, rfl, rfl, rfl, rfl, rfl, rfl, rfl, rfl, ?_, ?_⟩
  · exact ⟨now, now, now + ttlA, rfl, rfl, rfl, le_refl now, lt_add_of_pos_right now hA⟩
  · exact ⟨now, now, now + ttlR, rfl, rfl, rfl, le_refl now, lt_add_of_pos_right now hR⟩

/-- Witness for C8 at `u = 1`, `secret = [0]`, ttls 3600 and 7200, `now = 50`. -/
theorem c8_issued_claims_shape_and_invariant_witness :
    ∃ ta tr, GenerateAccessToken 1 [0] 3600 50 = .ok ta ∧
      GenerateRefreshToken 1 [0] 7200 50 = .ok tr ∧
      ta.payload = some (issuedClaims 1 3600 50) ∧
      tr.payload = some (issuedClaims 1 7200 50) ∧
      (issuedClaims 1 3600 50).issuedAt = some 50 ∧
      (issuedClaims 1 3600 50).notBefore = some 50 ∧
      (issuedClaims 1 3600 50).expiresAt = some (50 + 3600) ∧
      (issuedClaims 1 7200 50).issuedAt = some 50 ∧
      (issuedClaims 1 7200 50).notBefore = some 50 ∧
      (issuedClaims 1 7200 50).expiresAt = some (50 + 7200) ∧
      claimsWellOrdered (issuedClaims 1 3600 50) ∧
      claimsWellOrdered (issuedClaims 1 7200 50) :=
  c8_issued_claims_shape_and_invariant 1 [0] 3600 7200 50 (by decide) (by decide)

/-- **C4.** `Login` returns `ErrInvalidCredentials` exactly when the store
reports the e-mail as not found or the password fails the hash check; any
other store error surfaces as the wrapped `findUserFailure`, a value distinct
from `invalidCredentials` by construction. -/
theorem c4_login_invalid_credentials_iff (s : AuthService)
    (findByEmail : String → Except StoreError User) (req : LoginRequest)
    (now : Instant) :
    ((Login s findByEmail req now).err = some .invalidCredentials ↔
      (findByEmail req.email = .error .notFound ∨
        ∃ u, findByEmail req.email = .ok u ∧
          CheckPasswordHash req.password u.passwordHash = false)) ∧
    (∀ msg, findByEmail req.email = .error (.failure msg) →
      (Login s findByEmail req now).err = some (.findUserFailure msg) ∧
      LoginError.findUserFailure msg ≠ .invalidCredentials) := by
  constructor
  · cases hf : findByEmail req.email with
    | error e =>
      cases e with
      | notFound => simp [Login, hf]
      | failure msg => simp [Login, hf]
    | ok u =>
      cases hc : CheckPasswordHash req.password u.passwordHash with
      | false => simp [Login, hf, hc]
      | true => simp [Login, hf, hc, GenerateAccessToken, GenerateRefreshToken]
  · intro msg hf
    exact ⟨by simp [Login, hf], by simp⟩

/-- Witness for C4: a store that reports not-found yields
`invalidCredentials`. -/
theorem c4_login_invalid_credentials_iff_witness :
    (Login ⟨[1], 10, 20⟩ (fun _ => .error .notFound) ⟨"a@b", [3]⟩ 0).err =
      some .invalidCredentials :=
  (c4_login_invalid_credentials_iff ⟨[1], 10, 20⟩ (fun _ => .error .notFound)
      ⟨"a@b", [3]⟩ 0).1.mpr (Or.inl rfl)

/-- **C9.** Whenever `Login` returns an error, both token fields are the empty
string (`none` in the model): no partial token pair is handed out. -/
theorem c9_login_error_implies_no_tokens (s : AuthService)
    (findByEmail : String → Except StoreError User) (req : LoginRequest)
    (now : Instant) (he : (Login s findByEmail req now).err ≠ none) :
    (Login s findByEmail req now).accessToken = none ∧
    (Login s findByEmail req now).refreshToken = none := by
  cases hf : findByEmail req.email with
  | error e => cases e <;> simp [Login, hf]
  | ok u =>
    cases hc : CheckPasswordHash req.password u.passwordHash with
    | false => simp [Login, hf, hc]
    | true =>
      exfalso
      apply he
      simp [Login, hf, hc, GenerateAccessToken, GenerateRefreshToken]

/-- Witness for C9: a failing store lookup leaves both tokens empty. -/
theorem c9_login_error_implies_no_tokens_witness :
    (Login ⟨[1], 10, 20⟩ (fun _ => .error (.failure "db down")) ⟨"a@b", [3]⟩ 0).accessToken
        = none ∧
    (Login ⟨[1], 10, 20⟩ (fun _ => .error (.failure "db down")) ⟨"a@b", [3]⟩ 0).refreshToken
        = none :=
  c9_login_error_implies_no_tokens ⟨[1], 10, 20⟩
    (fun _ => .error (.failure "db down")) ⟨"a@b", [3]⟩ 0 (by simp [Login])

theorem goSplitSpace_ne_nil (s : GoStr) : goSplitSpace s ≠ [] := by
  cases s with
  | nil => simp [goSplitSpace]
  | cons c rest =>
    simp only [goSplitSpace]
    split <;> simp

theorem goSplitSpace_eq_cons (s : GoStr) : ∃ g0 gs, goSplitSpace s = g0 :: gs := by
  cases hgs : goSplitSpace s with
  | nil => exact absurd hgs (goSplitSpace_ne_nil s)
  | cons a as => exact ⟨a, as, rfl⟩

theorem goSplitSpace_no_space (s : GoStr) (hs : ' ' ∉ s) :
    goSplitSpace s = [s] := by
  induction s with
  | nil => rfl
  | cons c rest ih =>
    have hc : ¬ c = ' ' := fun hh => hs (by simp [hh])
    have hrest : ' ' ∉ rest := fun hh => hs (by simp [hh])
    simp [goSplitSpace, hc, ih hrest]

theorem goSplitSpace_append_space (s t : GoStr) (hs : ' ' ∉ s) :
    goSplitSpace (s ++ ' ' :: t) = s :: goSplitSpace t := by
  induction s with
  | nil => simp [goSplitSpace]
  | cons c rest ih =>
    have hc : ¬ c = ' ' := fun hh => hs (by simp [hh])
    have hrest : ' ' ∉ rest := fun hh => hs (by simp [hh])
    simp [goSplitSpace, hc, ih hrest]

theorem joinSpace_goSplitSpace (s : GoStr) : joinSpace (goSplitSpace s) = s := by
  induction s with
  | nil => rfl
  | cons c rest ih =>
    obtain ⟨g0, gs, hg⟩ := goSplitSpace_eq_cons rest
    rw [hg] at ih
    by_cases hc : c = ' '
    · subst hc
      simp only [goSplitSpace, if_pos rfl, hg]
      simpa [joinSpace] using ih
    · simp only [goSplitSpace, if_neg hc, hg]
      cases gs with
      | nil => simpa [joinSpace] using congrArg (c :: ·) ih
      | cons z zs =>
        simp only [joinSpace, List.headD_cons, List.tail_cons] at ih ⊢
        rw [List.cons_append, ih]

theorem goSplitSpace_mem_no_space (s : GoStr) (p : GoStr)
    (hp : p ∈ goSplitSpace s) : ' ' ∉ p := by
  induction s generalizing p with
  | nil =>
    simp only [goSplitSpace, List.mem_singleton] at hp
    subst hp
    simp
  | cons c rest ih =>
    obtain ⟨g0, gs, hg⟩ := goSplitSpace_eq_cons rest
    by_cases hc : c = ' '
    · subst hc
      have hp2 : p = [] ∨ p ∈ goSplitSpace rest := by
        simpa [goSplitSpace] using hp
      cases hp2 with
      | inl h1 => subst h1; simp
      | inr h2 => exact ih p h2
    · have hp2 : p = c :: g0 ∨ p ∈ gs := by
        simpa [goSplitSpace, hc, hg] using hp
      cases hp2 with
      | inl h1 =>
        subst h1
        intro hmem
        rcases List.mem_cons.mp hmem with h1 | h1
        · exact hc h1.symm
        · exact ih g0 (by rw [hg]; exact List.mem_cons_self g0 gs) h1
      | inr h2 => exact ih p (by rw [hg]; exact List.mem_cons_of_mem g0 h2)

/-- **C2.** For every inbound header that is not of the exact accepted bearer
shape (absent header, wrong scheme word, zero or more than one space, or empty
token), and for every injected validator, the gate rejects with 401 and the
generic message; the downstream handler is never invoked (the outcome is
`rejected`, and only the `admitted` branch of the gate calls `next`). -/
theorem c2_malformed_header_rejected (v : GoStr → Except String UUID)
    (h : GoStr) (hmal : ¬ WellFormedBearerHeader h) :
    JWTAuth v h = .rejected 401 "Missing or malformed authorization header" := by
  unfold JWTAuth
  by_cases h0 : h = []
  · rw [if_pos h0]
  · rw [if_neg h0]
    by_cases hshape : (goSplitSpace h).length ≠ 2 ∨
        goLower ((goSplitSpace h).headD []) ≠ "bearer".toList
    · rw [if_pos hshape]
    · rw [if_neg hshape]
      push_neg at hshape
      obtain ⟨hlen, hlow⟩ := hshape
      obtain ⟨g0, gs, hg⟩ := goSplitSpace_eq_cons h
      cases gs with
      | nil => rw [hg] at hlen; simp at hlen
      | cons g1 gs2 =>
        cases gs2 with
        | cons z zs => rw [hg] at hlen; simp at hlen
        | nil =>
          rw [hg, List.getD_cons_succ, List.getD_cons_zero]
          by_cases hb : g1 = []
          · rw [if_pos hb]
          · exfalso
            apply hmal
            refine ⟨g0, g1, ?_, ?_, ?_, hb, ?_⟩
            · rw [← joinSpace_goSplitSpace h, hg]
              rfl
            · exact goSplitSpace_mem_no_space h g0 (by rw [hg]; simp)
            · exact goSplitSpace_mem_no_space h g1 (by rw [hg]; simp)
            · rw [hg] at hlow
              simpa using hlow

/-- Witness for C2: the absent header (`Header.Get` returns `""`). -/
theorem c2_malformed_header_rejected_witness :
    JWTAuth (fun l => .ok l.length) [] =
      .rejected 401 "Missing or malformed authorization header" :=
  c2_malformed_header_rejected (fun l => .ok l.length) [] (by
    rintro ⟨s, t, heq, -, -, -, -⟩
    cases s <;> simp at heq)

/-- **C10.** The gate compares the scheme word case-insensitively: for every
non-empty space-free token `t` and every capitalization `s` of the scheme word
(`goLower s = "bearer"`), the header `s ++ " " ++ t` is treated identically to
`Bearer ++ " " ++ t`, and both proceed to token validation instead of being
rejected for their shape. -/
theorem c10_bearer_scheme_case_insensitive (v : GoStr → Except String UUID)
    (s t : GoStr) (hs : ' ' ∉ s) (ht : ' ' ∉ t) (hne : t ≠ [])
    (hlow : goLower s = "bearer".toList) :
    JWTAuth v (s ++ ' ' :: t) = JWTAuth v ("Bearer".toList ++ ' ' :: t) ∧
    JWTAuth v (s ++ ' ' :: t) =
      (match v t with
       | .error _ => .rejected 401 "Invalid or expired token"
       | .ok userID => .admitted userID) := by
  have key : ∀ s' : GoStr, ' ' ∉ s' → goLower s' = "bearer".toList →
      JWTAuth v (s' ++ ' ' :: t) =
        (match v t with
         | .error _ => .rejected 401 "Invalid or expired token"
         | .ok userID => .admitted userID) := by
    intro s' hs' hlow'
    have hsplit : goSplitSpace (s' ++ ' ' :: t) = [s', t] := by
      rw [goSplitSpace_append_space s' t hs', goSplitSpace_no_space t ht]
    have hnonempty : ¬ s' ++ ' ' :: t = [] := by simp
    unfold JWTAuth
    rw [if_neg hnonempty, hsplit]
    rw [if_neg (by simp [hlow'])]
    rw [List.getD_cons_succ, List.getD_cons_zero, if_neg hne]
  exact ⟨(key s hs hlow).trans
      (key "Bearer".toList (by decide) (by decide)).symm,
    key s hs hlow⟩

/-- Witness for C10: `bEaReR abc` with a validator accepting everything. -/
theorem c10_bearer_scheme_case_insensitive_witness :
    JWTAuth (fun l => .ok l.length) ("bEaReR".toList ++ ' ' :: "abc".toList) =
      JWTAuth (fun l => .ok l.length) ("Bearer".toList ++ ' ' :: "abc".toList) ∧
    JWTAuth (fun l => .ok l.length) ("bEaReR".toList ++ ' ' :: "abc".toList) =
      (match (fun (l : GoStr) => (.ok l.length : Except String UUID)) "abc".toList with
       | .error _ => .rejected 401 "Invalid or expired token"
       | .ok userID => .admitted userID) :=
  c10_bearer_scheme_case_insensitive (fun l => .ok l.length)
    "bEaReR".toList "abc".toList (by decide) (by decide) (by decide) (by decide)

end YouGo
